import Mathlib

/-!
Shallow embedding of the ReAct agent core:
`src/agent/react-agent.ts` (conversation memory, compression, the
reasoning/acting loop, tool dispatch, constructor configuration merging),
`src/tools/base.ts` (tool registry) and `src/prompts/react-prompt.ts`
(observation formatting).  Strings are copied verbatim from the source;
JavaScript numbers are modelled as `Nat`/`ℚ` (the only float literal,
`0.6`, multiplies an even integer `maxMessages ≤ 2^50`, where the
double-precision product always floors like the exact rational product:
the relative error below 2⁻⁵⁰ cannot cross an integer boundary because
the exact products are multiples of 1/5).
-/

namespace ReAct

/-- Message role in the rolling conversation history
(`ConversationMessage.role : "user" | "assistant"`). -/
inductive Role where
  | user
  | assistant
  deriving DecidableEq, Repr

/-- Type `ConversationMessage` from react-agent.ts. -/
structure ConversationMessage where
  role : Role
  content : String
  deriving DecidableEq, Repr

/-- Type `Step` from agent/types.ts.  `actionInput` is kept in its
JSON-serialized form (`none` = the field is `undefined`). -/
structure Step where
  thought : String
  action : Option String := none
  actionInput : Option String := none
  observation : Option String := none
  deriving DecidableEq, Repr

/-- Type `ThoughtAction` after `parseResponse` (react-agent.ts lines 298-327):
`null`s are converted to `undefined` and `finalAnswer` is already a
string. -/
structure ThoughtAction where
  thought : String
  action : Option String := none
  actionInput : Option String := none
  finalAnswer : Option String := none
  deriving DecidableEq, Repr

/-- Type `AgentResult` from agent/types.ts. -/
structure AgentResult where
  answer : String
  steps : List Step
  totalTokens : Nat
  deriving DecidableEq, Repr

/-- JavaScript `o || d` for an optional string (`""` and `undefined`
are falsy). -/
def jsOrStr (o : Option String) (d : String) : String :=
  match o with
  | some s => if s = "" then d else s
  | none => d

/-- JavaScript `o || d` for an optional number (`0` and `undefined`
are falsy). -/
def jsOrNum (o : Option Nat) (d : Nat) : Nat :=
  match o with
  | some n => if n = 0 then d else n
  | none => d

/-- JavaScript truthiness of an optional string. -/
def optStrTruthy : Option String → Bool
  | none => false
  | some s => s != ""

/-! ## Conversation memory manager (react-agent.ts lines 329-495) -/

/-- The regex search `answerContent.match(/答案[：:]\s*(.+)/s)` followed by
`.trim()` on the capture: find the first occurrence of `答案` followed by a
full- or half-width colon with at least one later character; the capture,
after backtracking of `\s*` against `(.+)` and trimming, is exactly the
trimmed remainder after the colon.  Returns `none` when the regex does not
match. -/
def findAnswerTail : List Char → Option (List Char)
  | [] => none
  | c :: rest =>
    match rest with
    | c2 :: c3 :: rest2 =>
      if c = '答' ∧ c2 = '案' ∧ (c3 = '：' ∨ c3 = ':') ∧ rest2 ≠ [] then
        some rest2
      else findAnswerTail rest
    | _ => findAnswerTail rest

/-- One `for (let i = 0; ...; i += 2)` pass of `generateHistorySummary`
(react-agent.ts lines 432-461), carrying `roundNum = i / 2 + 1`.  A final
unpaired message (`assistantMsg === undefined`) contributes nothing. -/
def summarizePairs : Nat → List ConversationMessage → String
  | _, [] => ""
  | _, [_] => ""
  | roundNum, u :: a :: rest =>
    let question := if u.content.length > 80 then u.content.take 80 ++ "..." else u.content
    let answer0 :=
      match findAnswerTail a.content.toList with
      | some tail => (String.mk tail).trim
      | none => a.content
    let answer := if answer0.length > 100 then answer0.take 100 ++ "..." else answer0
    "第 " ++ toString roundNum ++ " 轮 - Q: " ++ question ++ "\n         A: " ++ answer ++ "\n\n"
      ++ summarizePairs (roundNum + 1) rest

/-- Function `generateHistorySummary(messages, rounds)` (react-agent.ts lines 425-466). -/
def generateHistorySummary (messages : List ConversationMessage) (rounds : Nat) : String :=
  "📝 早期对话摘要（已压缩 " ++ toString rounds ++ " 轮对话）：\n\n"
    ++ summarizePairs 1 messages
    ++ "💡 提示：以上是早期对话的简化摘要，如需引用这些内容，请基于摘要信息推理。"

/-- Method `compressHistoryIfNeeded()` (react-agent.ts lines 375-420), as a pure
function of the configured `maxHistoryRounds` and the current history.
`Math.floor(maxMessages * 0.6)` is modelled by the natural-number division
`maxMessages * 3 / 5`, which equals the exact rational floor
`⌊maxMessages * (3/5)⌋` (proved below) and agrees with the
double-precision computation (see the header comment). -/
def compressHistoryIfNeeded (maxHistoryRounds : Nat)
    (history : List ConversationMessage) : List ConversationMessage :=
  let maxMessages := maxHistoryRounds * 2
  if history.length ≤ maxMessages then history
  else
    let keepRecentMessages := maxMessages * 3 / 5
    let compressCount := history.length - keepRecentMessages
    let compressRounds := compressCount / 2
    let messagesToCompress := compressRounds * 2
    if messagesToCompress < 2 then history
    else
      let toCompress := history.take messagesToCompress
      let toKeep := history.drop messagesToCompress
      ⟨Role.assistant, generateHistorySummary toCompress compressRounds⟩ :: toKeep

/-- The `forEach` body of `saveConversation` (react-agent.ts lines 347-355):
one line per step that has a truthy `action` and `observation`, numbered by
position (`index + 1`) over the whole list. -/
def stepLines : Nat → List Step → String
  | _, [] => ""
  | idx, s :: rest =>
    (if optStrTruthy s.action ∧ optStrTruthy s.observation then
      "- 步骤" ++ toString idx ++ ": 使用 " ++ (s.action.getD "") ++ " 工具，获得："
        ++ (s.observation.getD "") ++ "\n"
    else "") ++ stepLines (idx + 1) rest

/-- The assistant message synthesized by `saveConversation`
(react-agent.ts lines 343-357). -/
def mkAssistantRecord (steps : List Step) (answer : String) : String :=
  (if steps.length > 0 then "推理过程：\n" ++ stepLines 1 steps ++ "\n" else "")
    ++ "答案：" ++ answer

/-- Method `saveConversation(question, answer, steps)` (react-agent.ts lines
332-370): push the user question, push the synthesized assistant message,
then run the compression check. -/
def saveConversation (maxHistoryRounds : Nat) (question answer : String)
    (steps : List Step) (history : List ConversationMessage) : List ConversationMessage :=
  compressHistoryIfNeeded maxHistoryRounds
    (history ++ [⟨Role.user, question⟩, ⟨Role.assistant, mkAssistantRecord steps answer⟩])

/-- Method `clearHistory()` (react-agent.ts lines 471-476). -/
def clearHistory (_history : List ConversationMessage) : List ConversationMessage := []

/-- Method `getHistory()` (react-agent.ts lines 481-483); the defensive copy is
the identity on immutable lists. -/
def getHistory (history : List ConversationMessage) : List ConversationMessage := history

/-- Rendering of the JavaScript number `n / 2` for a natural `n` inside a
template string (an exact integer, or `k.5`). -/
def jsHalfToString (n : Nat) : String :=
  if n % 2 = 0 then toString (n / 2) else toString (n / 2) ++ ".5"

/-- Method `getHistorySummary()` (react-agent.ts lines 488-495). -/
def getHistorySummary (history : List ConversationMessage) : String :=
  if history.length = 0 then "暂无对话历史"
  else "共 " ++ jsHalfToString history.length ++ " 轮对话，"
    ++ toString history.length ++ " 条消息"

/-! ## Tool contract and registry (src/tools/base.ts) -/

/-- Type `ToolResult` from agent/types.ts; the opaque `data` payload is kept in
its rendered textual form (`none` = `undefined`). -/
structure ToolResult where
  success : Bool
  data : Option String := none
  error : Option String := none
  deriving DecidableEq, Repr

/-- The observable surface of a `Tool` (base.ts lines 8-64): a unique name,
a description, and `execute`, taking the JSON-serialized input;
`Except.error e` models `execute` throwing an exception with message `e`. -/
structure Tool where
  name : String
  description : String
  execute : Option String → Except String ToolResult

/-- Type `ToolRegistry` (base.ts lines 69-111): a `Map` iterated in insertion
order. -/
abbrev ToolRegistry := List Tool

namespace ToolRegistry

/-- Method `register(tool)` (base.ts lines 75-80); `Except.error` models the
thrown duplicate-name error, in which case no new registry state is
produced. -/
def register (reg : ToolRegistry) (tool : Tool) : Except String ToolRegistry :=
  if reg.any (fun t => t.name == tool.name) then
    Except.error ("Tool with name \"" ++ tool.name ++ "\" already registered")
  else
    Except.ok (reg ++ [tool])

/-- Method `get(name)` (base.ts lines 85-87). -/
def get (reg : ToolRegistry) (name : String) : Option Tool :=
  reg.find? (fun t => t.name == name)

/-- Method `getNames()` (base.ts lines 108-110). -/
def getNames (reg : ToolRegistry) : List String :=
  reg.map (fun t => t.name)

end ToolRegistry

/-! ## Observation rendering (src/prompts/react-prompt.ts lines 98-121) -/

/-- Function `formatObservation(toolName, success, data, error)`.  Arguments `data`/`error`
are the rendered payload/message; an absent value interpolates as the
string `undefined` (JavaScript `String(undefined)`). -/
def formatObservation (toolName : String) (success : Bool)
    (data : Option String) (error : Option String) : String :=
  if success then
    let resultStr := match data with | some s => s | none => "undefined"
    if toolName = "calculator" then
      "✅ 计算完成！结果是：" ++ resultStr ++ "\n\n⚠️ 下一步行动：\n1. 如果这个结果已经能直接回答用户问题 → 输出 finalAnswer\n2. 如果需要基于此结果继续推理或使用其他工具 → 继续下一步\n3. 绝对不要用相同参数再次调用 calculator"
    else
      "工具 [" ++ toolName ++ "] 执行成功。结果：" ++ resultStr
  else
    "工具 [" ++ toolName ++ "] 执行失败。错误："
      ++ (match error with | some e => e | none => "undefined")

/-! ## Tool dispatch (react-agent.ts lines 500-531) -/

/-- Method `executeTool(toolName, toolInput)`: unknown names yield a failure
observation listing the registered names; a thrown tool exception is
caught and rendered as a failure observation.  Total — it never
propagates an error. -/
def executeTool (reg : ToolRegistry) (toolName : String)
    (toolInput : Option String) : String :=
  match ToolRegistry.get reg toolName with
  | none =>
    formatObservation toolName false none
      (some ("工具 \"" ++ toolName ++ "\" 不存在。可用工具："
        ++ String.intercalate ", " (ToolRegistry.getNames reg)))
  | some tool =>
    match tool.execute toolInput with
    | Except.ok result => formatObservation toolName result.success result.data result.error
    | Except.error e => formatObservation toolName false none (some e)

/-! ## The reasoning/acting loop (react-agent.ts lines 104-252) -/

/-- One model call per iteration: given the iteration index and the current
step list, produce the accumulated `total_tokens` contribution
(`response.usage?.total_tokens || 0`, `0` when the call itself throws) and
either the parsed `ThoughtAction` or the message of the exception thrown by
`callLLM`/`parseResponse`. -/
def LLMBehavior : Type :=
  Nat → List Step → Nat × Except String ThoughtAction

/-- The repetition guard (react-agent.ts lines 166-177): true when the two
most recent steps both carry the same action name and the same serialized
input as the new proposal. -/
def isRepeatedAction (steps : List Step) (ta : ThoughtAction) : Bool :=
  if steps.length ≥ 2 then
    match steps.getLast?, steps.dropLast.getLast? with
    | some lastStep, some secondLastStep =>
      decide (lastStep.action = ta.action ∧ secondLastStep.action = ta.action ∧
        lastStep.actionInput = ta.actionInput ∧ secondLastStep.actionInput = ta.actionInput)
    | _, _ => false
  else false

/-- The repetition-policy answer (react-agent.ts line 179). -/
def repetitionAnswer (steps : List Step) : String :=
  "检测到重复操作循环。已执行 " ++ toString steps.length
    ++ " 步，但 AI 一直重复相同的操作。最后的观察结果是："
    ++ jsOrStr (steps.getLast?.bind (fun s => s.observation)) "无"
    ++ "。请尝试更具体的问题或使用不同的模型。"

/-- The catch-all error answer (react-agent.ts line 224). -/
def runtimeErrorAnswer (e : String) : String :=
  "抱歉，执行过程中出现错误: " ++ e

/-- The message of the exception thrown when a decision carries neither an
action nor a final answer (react-agent.ts line 218). -/
def noActionNoFinalMsg : String :=
  "LLM 响应中既没有 action 也没有 finalAnswer"

/-- The iteration-budget-exhaustion answer (react-agent.ts line 242). -/
def budgetExhaustedAnswer : String :=
  "抱歉，我无法在规定的步骤内完成推理。请尝试简化问题或增加最大迭代次数。"

/-- The body of the `for` loop of `run()` (react-agent.ts lines 113-235),
by recursion on the remaining iteration budget; `iteration` is the loop
index fed to the model, `steps`/`tokens` the accumulated state.  Every
branch returns the `AgentResult` together with the history as updated by
`saveConversation`. -/
def runLoop (reg : ToolRegistry) (llm : LLMBehavior) (question : String)
    (maxHistoryRounds : Nat) :
    Nat → Nat → List Step → Nat → List ConversationMessage →
    AgentResult × List ConversationMessage
  | _iteration, 0, steps, tokens, history =>
    (⟨budgetExhaustedAnswer, steps, tokens⟩,
      saveConversation maxHistoryRounds question budgetExhaustedAnswer steps history)
  | iteration, remaining + 1, steps, tokens, history =>
    let (t, parsed) := llm iteration steps
    let tokens' := tokens + t
    match parsed with
    | Except.error e =>
      (⟨runtimeErrorAnswer e, steps, tokens'⟩,
        saveConversation maxHistoryRounds question (runtimeErrorAnswer e) steps history)
    | Except.ok ta =>
      if optStrTruthy ta.finalAnswer then
        let finalAnswer := ta.finalAnswer.getD ""
        let steps' := steps ++ [{ thought := ta.thought }]
        (⟨finalAnswer, steps', tokens'⟩,
          saveConversation maxHistoryRounds question finalAnswer steps' history)
      else if optStrTruthy ta.action then
        if isRepeatedAction steps ta then
          (⟨repetitionAnswer steps, steps, tokens'⟩,
            saveConversation maxHistoryRounds question (repetitionAnswer steps) steps history)
        else
          let observation := executeTool reg (ta.action.getD "") ta.actionInput
          let steps' := steps ++
            [{ thought := ta.thought, action := ta.action,
               actionInput := ta.actionInput, observation := some observation }]
          runLoop reg llm question maxHistoryRounds (iteration + 1) remaining steps' tokens' history
      else
        (⟨runtimeErrorAnswer noActionNoFinalMsg, steps, tokens'⟩,
          saveConversation maxHistoryRounds question (runtimeErrorAnswer noActionNoFinalMsg)
            steps history)

/-- Method `run(question)` (react-agent.ts lines 104-252) as a pure function of
the merged configuration values it reads, the registry, the model
behaviour, and the incoming conversation history.  Returns the result
object together with the updated history. -/
def run (maxIterations maxHistoryRounds : Nat) (reg : ToolRegistry)
    (llm : LLMBehavior) (question : String)
    (history : List ConversationMessage) : AgentResult × List ConversationMessage :=
  runLoop reg llm question maxHistoryRounds 0 maxIterations [] 0 history

/-! ## Constructor and configuration merging (react-agent.ts lines 37-97,
agent/types.ts `AgentConfig`) -/

/-- Type `AgentConfig` from agent/types.ts (the fields the constructor reads;
`projectStructure` is unused there).  JavaScript numbers are `Nat` for the
integer-valued knobs and `ℚ` for `temperature`. -/
structure AgentConfig where
  model : Option String := none
  maxIterations : Option Nat := none
  temperature : Option ℚ := none
  verbose : Option Bool := none
  baseURL : Option String := none
  apiKey : Option String := none
  maxHistoryRounds : Option Nat := none

/-- The merged `this.config` record. -/
structure MergedConfig where
  model : String
  maxIterations : Nat
  temperature : ℚ
  verbose : Bool
  baseURL : Option String
  maxHistoryRounds : Nat

/-- The constructed agent state: the API key handed to the OpenAI client
plus the merged configuration. -/
structure Agent where
  apiKey : String
  config : MergedConfig

/-- JavaScript `o || d` for an optional rational (`0` and `undefined` are
falsy). -/
def jsOrRat (o : Option ℚ) (d : ℚ) : ℚ :=
  match o with
  | some q => if q = 0 then d else q
  | none => d

/-- JavaScript `o || d` for an optional boolean. -/
def jsOrBool (o : Option Bool) (d : Bool) : Bool :=
  match o with
  | some b => b || d
  | none => d

/-- The configuration merge (react-agent.ts lines 76-83). -/
def mergeConfig (fc : AgentConfig) : MergedConfig where
  model := jsOrStr fc.model ""
  maxIterations := jsOrNum fc.maxIterations 10
  temperature := jsOrRat fc.temperature 0
  verbose := jsOrBool fc.verbose false
  baseURL := fc.baseURL
  maxHistoryRounds := jsOrNum fc.maxHistoryRounds 10

/-- The two constructor calling conventions (react-agent.ts lines 42-60). -/
inductive ApiKeyOrConfig where
  | key (apiKey : String)
  | cfg (config : AgentConfig)

/-- The `finalConfig` value as selected by the constructor: the trailing `config`
parameter in the apiKey form, the first parameter in the config form. -/
def finalConfigOf : ApiKeyOrConfig → AgentConfig → AgentConfig
  | ApiKeyOrConfig.key _, config => config
  | ApiKeyOrConfig.cfg c, _ => c

/-- The constructor (react-agent.ts lines 37-97).  `Except.error` models
the thrown configuration error; the OpenAI client construction itself is an
opaque collaborator that accepts any string key. -/
def mkAgent (apiKeyOrConfig : ApiKeyOrConfig) (config : AgentConfig) :
    Except String Agent :=
  match apiKeyOrConfig with
  | ApiKeyOrConfig.key s =>
    Except.ok { apiKey := s, config := mergeConfig config }
  | ApiKeyOrConfig.cfg c =>
    let finalApiKey := jsOrStr c.apiKey ""
    if finalApiKey = "" then
      Except.error "必须提供 apiKey，可以通过构造函数参数或 config.apiKey 传入"
    else
      Except.ok { apiKey := finalApiKey, config := mergeConfig c }

/-! ## Theorems -/

/-- Natural division `m * 3 / 5` is the floor of the exact product `m * 0.6`. -/
theorem floor_mul_point_six (m : ℕ) : Nat.floor ((m : ℚ) * 0.6) = m * 3 / 5 := by
  have h : (m : ℚ) * 0.6 = ((m * 3 : ℕ) : ℚ) / ((5 : ℕ) : ℚ) := by
    push_cast
    norm_num
    ring
  rw [h, Nat.floor_div_nat, Nat.floor_natCast]

end ReAct

namespace ReAct

/-- C1: after a record, with `limit = maxHistoryRounds * 2`, compression is
a no-op when the stored count is ≤ `limit`; otherwise, with
`keep = ⌊limit * 0.6⌋` and `toCompressCount = total - keep` rounded down to
the nearest even number, it is a no-op when `toCompressCount < 2`, and
otherwise replaces the oldest `toCompressCount` messages by exactly one
synthetic assistant-role summary message prepended to the retained tail,
so the resulting count is `1 + (total - toCompressCount)`. -/
theorem compressHistory_spec (R : ℕ) (h : List ConversationMessage) :
    compressHistoryIfNeeded R h =
      (if h.length ≤ R * 2 then h
       else if (h.length - Nat.floor (((R * 2 : ℕ) : ℚ) * 0.6)) / 2 * 2 < 2 then h
       else
         ⟨Role.assistant,
            generateHistorySummary
              (h.take ((h.length - Nat.floor (((R * 2 : ℕ) : ℚ) * 0.6)) / 2 * 2))
              ((h.length - Nat.floor (((R * 2 : ℕ) : ℚ) * 0.6)) / 2)⟩ ::
           h.drop ((h.length - Nat.floor (((R * 2 : ℕ) : ℚ) * 0.6)) / 2 * 2))
    ∧ (compressHistoryIfNeeded R h).length =
      (if h.length ≤ R * 2 then h.length
       else if (h.length - Nat.floor (((R * 2 : ℕ) : ℚ) * 0.6)) / 2 * 2 < 2 then h.length
       else 1 + (h.length - (h.length - Nat.floor (((R * 2 : ℕ) : ℚ) * 0.6)) / 2 * 2)) := by
  rw [floor_mul_point_six]
  have heq : compressHistoryIfNeeded R h =
      (if h.length ≤ R * 2 then h
       else if (h.length - R * 2 * 3 / 5) / 2 * 2 < 2 then h
       else
         ⟨Role.assistant,
            generateHistorySummary (h.take ((h.length - R * 2 * 3 / 5) / 2 * 2))
              ((h.length - R * 2 * 3 / 5) / 2)⟩ ::
           h.drop ((h.length - R * 2 * 3 / 5) / 2 * 2)) := by
    unfold compressHistoryIfNeeded
    by_cases h1 : h.length ≤ R * 2
    · simp [h1]
    · by_cases h2 : (h.length - R * 2 * 3 / 5) / 2 * 2 < 2
      · simp [h1, h2]
      · simp [h1, h2]
  refine ⟨heq, ?_⟩
  rw [heq]
  by_cases h1 : h.length ≤ R * 2
  · simp [h1]
  · by_cases h2 : (h.length - R * 2 * 3 / 5) / 2 * 2 < 2
    · simp [h1, h2]
    · simp only [if_neg h1, if_neg h2, List.length_cons, List.length_drop]
      omega

/-- Compression is a no-op at or below the message limit. -/
theorem compress_noop (R : ℕ) (h : List ConversationMessage)
    (hle : h.length ≤ R * 2) : compressHistoryIfNeeded R h = h := by
  unfold compressHistoryIfNeeded
  simp [hle]

/-- C5: registering a tool whose name is already present fails with the
duplicate-name error and produces no new registry state (the previously
registered tool remains the one found under that name); registering a
fresh name appends the tool, which is then found by lookup. -/
theorem register_duplicate_spec (reg : ToolRegistry) (tool : Tool) :
    (ToolRegistry.register reg tool
        = Except.error ("Tool with name \"" ++ tool.name ++ "\" already registered")
      ∨ ToolRegistry.register reg tool = Except.ok (reg ++ [tool]))
    ∧ (ToolRegistry.register reg tool = Except.ok (reg ++ [tool])
        ↔ ToolRegistry.get reg tool.name = none)
    ∧ ToolRegistry.get (reg ++ [tool]) tool.name
        = some ((ToolRegistry.get reg tool.name).getD tool) := by
  unfold ToolRegistry.register ToolRegistry.get
  rcases hfind : reg.find? (fun t => t.name == tool.name) with _ | t₀
  · have hany : reg.any (fun t => t.name == tool.name) = false := by
      rw [← Bool.not_eq_true, List.any_eq_true]
      rintro ⟨x, hx, hpx⟩
      exact (List.find?_eq_none.mp hfind x hx) hpx
    refine ⟨Or.inr (by simp [hany]), by rw [hfind]; simp [hany], ?_⟩
    rw [List.find?_append, hfind]
    simp
  · have hp : (fun t => t.name == tool.name) t₀ = true :=
      @List.find?_some _ (fun t => t.name == tool.name) t₀ reg hfind
    have hany : reg.any (fun t => t.name == tool.name) = true :=
      List.any_eq_true.mpr ⟨t₀, List.mem_of_find?_eq_some hfind, hp⟩
    refine ⟨Or.inl (by simp [hany]), ?_, ?_⟩
    · simp only [hany, if_true]
      constructor
      · intro hcontra
        exact absurd hcontra (by simp)
      · intro hnone
        rw [hfind] at hnone
        cases hnone
    · rw [List.find?_append, hfind]
      rfl

/-- C8: recording an exchange with an empty step list on a history below
the compression limit appends exactly the user question verbatim and an
assistant message `答案：<answer>` (which contains the answer as a literal
substring); clearing empties the history and the summary then reports the
explicit empty state. -/
theorem record_roundtrip (R : ℕ) (q a : String) (h : List ConversationMessage)
    (hlen : h.length + 2 ≤ R * 2) :
    saveConversation R q a [] h
        = h ++ [⟨Role.user, q⟩, ⟨Role.assistant, "答案：" ++ a⟩]
    ∧ clearHistory (saveConversation R q a [] h) = []
    ∧ getHistorySummary (clearHistory (saveConversation R q a [] h)) = "暂无对话历史" := by
  have hmk : mkAssistantRecord [] a = "答案：" ++ a := rfl
  have hsave : saveConversation R q a [] h
      = h ++ [⟨Role.user, q⟩, ⟨Role.assistant, "答案：" ++ a⟩] := by
    unfold saveConversation
    rw [hmk]
    apply compress_noop
    simp only [List.length_append, List.length_cons, List.length_nil]
    omega
  exact ⟨hsave, rfl, rfl⟩

/-- C8 witness: a concrete record on the empty history with
`maxHistoryRounds = 1`. -/
theorem record_roundtrip_witness :
    ([] : List ConversationMessage).length + 2 ≤ 1 * 2
    ∧ (saveConversation 1 "hello" "42" [] []
        = [⟨Role.user, "hello"⟩, ⟨Role.assistant, "答案：42"⟩]
      ∧ clearHistory (saveConversation 1 "hello" "42" [] []) = []
      ∧ getHistorySummary (clearHistory (saveConversation 1 "hello" "42" [] []))
          = "暂无对话历史") :=
  ⟨by decide, record_roundtrip 1 "hello" "42" [] (by decide)⟩

/-- A configuration supplying an API key but no model identifier. -/
def noModelConfig : AgentConfig := { apiKey := some "sk-test" }

/-- C9 counterexample: construction succeeds (no throw) although the model
identifier is missing — the merged model id silently defaults to the empty
string — and the string-apiKey calling form succeeds even for an empty
credential, so misconfiguration of the model id (and an empty key passed
positionally) is deferred to `run()` rather than surfaced at construction
time. -/
theorem mkAgent_missing_model_ok :
    mkAgent (ApiKeyOrConfig.cfg noModelConfig) {}
        = Except.ok { apiKey := "sk-test", config := mergeConfig noModelConfig }
    ∧ (mergeConfig noModelConfig).model = ""
    ∧ mkAgent (ApiKeyOrConfig.key "") {}
        = Except.ok { apiKey := "", config := mergeConfig {} } := by
  refine ⟨?_, rfl, rfl⟩
  rfl

/-- C9 (amended): construction fails — with the fixed apiKey error — iff
the config-object calling form is used and the effective `apiKey`
(`config.apiKey || ""`) is empty; every other construction succeeds, and
in particular a missing model identifier is never checked at construction
time. -/
theorem mkAgent_error_characterization (akc : ApiKeyOrConfig) (config : AgentConfig) :
    (mkAgent akc config
        = Except.error "必须提供 apiKey，可以通过构造函数参数或 config.apiKey 传入"
      ↔ ∃ c, akc = ApiKeyOrConfig.cfg c ∧ jsOrStr c.apiKey "" = "")
    ∧ ((∃ A, mkAgent akc config = Except.ok A)
      ∨ mkAgent akc config
          = Except.error "必须提供 apiKey，可以通过构造函数参数或 config.apiKey 传入") := by
  cases akc with
  | key s =>
    constructor
    · simp [mkAgent]
    · exact Or.inl ⟨{ apiKey := s, config := mergeConfig config }, rfl⟩
  | cfg c =>
    by_cases hk : jsOrStr c.apiKey "" = ""
    · constructor
      · simp only [mkAgent, if_pos hk, eq_self_iff_true, true_iff]
        exact ⟨c, rfl, hk⟩
      · exact Or.inr (by simp [mkAgent, hk])
    · constructor
      · simp only [mkAgent, if_neg hk]
        constructor
        · intro hcontra
          exact absurd hcontra (by simp)
        · rintro ⟨c', hc', hk'⟩
          cases hc'
          exact absurd hk' hk
      · exact Or.inl ⟨{ apiKey := jsOrStr c.apiKey "", config := mergeConfig c },
          by simp [mkAgent, hk]⟩

/-- Dropping fewer elements than the length preserves the last element. -/
theorem getLast?_drop_of_lt {α : Type} (l : List α) (n : ℕ) (hn : n < l.length) :
    (l.drop n).getLast? = l.getLast? := by
  conv_rhs => rw [← List.take_append_drop n l]
  rw [List.getLast?_append]
  rcases hlast : (l.drop n).getLast? with _ | x
  · rw [List.getLast?_eq_none_iff, List.drop_eq_nil_iff] at hlast
    omega
  · rfl

/-- Compression either leaves the history unchanged or removes a positive
even number of oldest messages, replacing them by one assistant-role
summary while keeping a nonempty tail. -/
theorem compress_cases (R : ℕ) (hR : 1 ≤ R) (h : List ConversationMessage) :
    compressHistoryIfNeeded R h = h
    ∨ ∃ k, 1 ≤ k ∧ k * 2 < h.length
        ∧ compressHistoryIfNeeded R h
          = ⟨Role.assistant, generateHistorySummary (h.take (k * 2)) k⟩ :: h.drop (k * 2) := by
  by_cases h1 : h.length ≤ R * 2
  · exact Or.inl (compress_noop R h h1)
  · by_cases h2 : (h.length - R * 2 * 3 / 5) / 2 * 2 < 2
    · left
      unfold compressHistoryIfNeeded
      simp [h1, h2]
    · right
      refine ⟨(h.length - R * 2 * 3 / 5) / 2, by omega, by omega, ?_⟩
      unfold compressHistoryIfNeeded
      simp [h1, h2]

/-- The three-record scenario with `maxHistoryRounds = 1` that triggers
compression twice. -/
def threeRecords : List ConversationMessage :=
  saveConversation 1 "q3" "a3" []
    (saveConversation 1 "q2" "a2" [] (saveConversation 1 "q1" "a1" [] []))

/-- C2 counterexample: with `maxHistoryRounds = 1`, after the third record
the compression has removed the round-3 user question (no user message
survives at all — the question was folded into the summary) while keeping
that round's assistant answer in the tail, i.e. the second compression
split a question from its answer instead of removing only complete
user/assistant pairs. -/
theorem compress_splits_pair :
    threeRecords.length = 2
    ∧ threeRecords.map (fun m => m.role) = [Role.assistant, Role.assistant]
    ∧ threeRecords.getLast? = some ⟨Role.assistant, "答案：a3"⟩
    ∧ (⟨Role.user, "q3"⟩ : ConversationMessage) ∉ threeRecords := by
  decide

/-- C2 (amended): every compression removes an even number `k * 2 ≥ 2` of
the oldest messages — complete user/assistant pairs whenever the stored
prefix consists solely of alternating pairs, as at the first compression,
though a standalone summary inserted by an earlier compression can shift
this pairing — and for any configured `maxHistoryRounds ≥ 1` the most
recent round's assistant message always survives verbatim as the last
stored message after every record. -/
theorem compress_even_removal_and_recency (R : ℕ) (hR : 1 ≤ R) :
    (∀ (q a : String) (steps : List Step) (h : List ConversationMessage),
      (saveConversation R q a steps h).getLast?
        = some ⟨Role.assistant, mkAssistantRecord steps a⟩)
    ∧ ∀ h : List ConversationMessage,
        compressHistoryIfNeeded R h = h
        ∨ ∃ k, 1 ≤ k ∧ k * 2 < h.length
            ∧ compressHistoryIfNeeded R h
              = ⟨Role.assistant, generateHistorySummary (h.take (k * 2)) k⟩ :: h.drop (k * 2) := by
  refine ⟨?_, fun h => compress_cases R hR h⟩
  intro q a steps h
  unfold saveConversation
  rcases compress_cases R hR
      (h ++ [⟨Role.user, q⟩, ⟨Role.assistant, mkAssistantRecord steps a⟩]) with heq | ⟨k, _, hk2, heq⟩
  · rw [heq]
    simp [List.getLast?_append]
  · have hd := getLast?_drop_of_lt _ _ hk2
    rw [heq, List.getLast?_cons, hd]
    simp [List.getLast?_append]

/-- C2 witness: a concrete record with `maxHistoryRounds = 1` after which
the newest assistant message is still the last stored message, and a
concrete compression that removes exactly one complete pair. -/
theorem compress_even_removal_and_recency_witness :
    1 ≤ 1
    ∧ (saveConversation 1 "q3" "a3" [] (saveConversation 1 "q2" "a2" []
          (saveConversation 1 "q1" "a1" [] []))).getLast?
        = some ⟨Role.assistant, mkAssistantRecord [] "a3"⟩ :=
  ⟨le_refl 1, (compress_even_removal_and_recency 1 (le_refl 1)).1 "q3" "a3" []
    (saveConversation 1 "q2" "a2" [] (saveConversation 1 "q1" "a1" [] []))⟩

/-- C10: whenever construction succeeds, the merged configuration never
holds a zero iteration budget, and every falsy supplied value (absent or
`0` for the numeric knobs, absent or `""` for the model id, absent or
`false` for `verbose`) is replaced through the `||`-merge: `maxIterations`
and `maxHistoryRounds` fall back to 10, `verbose` to `false`, and the model
id to the empty string. -/
theorem config_falsy_defaults (akc : ApiKeyOrConfig) (config : AgentConfig) (A : Agent)
    (hA : mkAgent akc config = Except.ok A) :
    A.config = mergeConfig (finalConfigOf akc config)
    ∧ A.config.maxIterations ≠ 0
    ∧ (((finalConfigOf akc config).maxIterations = none
        ∨ (finalConfigOf akc config).maxIterations = some 0) → A.config.maxIterations = 10)
    ∧ (((finalConfigOf akc config).model = none
        ∨ (finalConfigOf akc config).model = some "") → A.config.model = "")
    ∧ (((finalConfigOf akc config).verbose = none
        ∨ (finalConfigOf akc config).verbose = some false) → A.config.verbose = false)
    ∧ (((finalConfigOf akc config).maxHistoryRounds = none
        ∨ (finalConfigOf akc config).maxHistoryRounds = some 0)
        → A.config.maxHistoryRounds = 10) := by
  have hcfg : A.config = mergeConfig (finalConfigOf akc config) := by
    cases akc with
    | key s =>
      simp only [mkAgent, Except.ok.injEq] at hA
      rw [← hA]
      rfl
    | cfg c =>
      by_cases hk : jsOrStr c.apiKey "" = ""
      · simp [mkAgent, hk] at hA
      · simp only [mkAgent, if_neg hk, Except.ok.injEq] at hA
        rw [← hA]
        rfl
  rw [hcfg]
  refine ⟨rfl, ?_, ?_, ?_, ?_, ?_⟩
  · rcases hmi : (finalConfigOf akc config).maxIterations with _ | n
    · simp [mergeConfig, jsOrNum, hmi]
    · by_cases hn : n = 0 <;> simp [mergeConfig, jsOrNum, hmi, hn]
  · rintro (hmi | hmi) <;> simp [mergeConfig, jsOrNum, hmi]
  · rintro (hm | hm) <;> simp [mergeConfig, jsOrStr, hm]
  · rintro (hv | hv) <;> simp [mergeConfig, jsOrBool, hv]
  · rintro (hr | hr) <;> simp [mergeConfig, jsOrNum, hr]

/-- A configuration setting every defaulted knob to a falsy value. -/
def falsyConfig : AgentConfig :=
  { model := some "", maxIterations := some 0, verbose := some false,
    maxHistoryRounds := some 0 }

/-- The agent the constructor builds from `falsyConfig`. -/
def falsyMergedAgent : Agent :=
  { apiKey := "k",
    config := { model := "", maxIterations := 10, temperature := 0, verbose := false,
                baseURL := none, maxHistoryRounds := 10 } }

/-- C10 witness: constructing with every knob falsy yields the documented
defaults. -/
theorem config_falsy_defaults_witness :
    mkAgent (ApiKeyOrConfig.key "k") falsyConfig = Except.ok falsyMergedAgent
    ∧ falsyMergedAgent.config.maxIterations = 10
    ∧ falsyMergedAgent.config.model = ""
    ∧ falsyMergedAgent.config.verbose = false
    ∧ falsyMergedAgent.config.maxHistoryRounds = 10 := by
  refine ⟨rfl, ?_, ?_, ?_, ?_⟩
  · exact (config_falsy_defaults (ApiKeyOrConfig.key "k") falsyConfig falsyMergedAgent
      rfl).2.2.1 (Or.inr rfl)
  · exact (config_falsy_defaults (ApiKeyOrConfig.key "k") falsyConfig falsyMergedAgent
      rfl).2.2.2.1 (Or.inr rfl)
  · exact (config_falsy_defaults (ApiKeyOrConfig.key "k") falsyConfig falsyMergedAgent
      rfl).2.2.2.2.1 (Or.inr rfl)
  · exact (config_falsy_defaults (ApiKeyOrConfig.key "k") falsyConfig falsyMergedAgent
      rfl).2.2.2.2.2 (Or.inr rfl)

/-- One loop iteration that proposes a fresh action: the tool is executed,
the step is appended, and the loop continues with the next iteration. -/
theorem runLoop_step_action (reg : ToolRegistry) (llm : LLMBehavior) (q : String)
    (R iter r : ℕ) (steps : List Step) (tokens : ℕ) (hist : List ConversationMessage)
    (t : ℕ) (th act : String) (ai : Option String)
    (hllm : llm iter steps = (t, Except.ok ⟨th, some act, ai, none⟩))
    (hact : act ≠ "")
    (hrep : isRepeatedAction steps ⟨th, some act, ai, none⟩ = false) :
    runLoop reg llm q R iter (r + 1) steps tokens hist
      = runLoop reg llm q R (iter + 1) r
          (steps ++ [⟨th, some act, ai, some (executeTool reg act ai)⟩])
          (tokens + t) hist := by
  simp [runLoop, hllm, optStrTruthy, hact, hrep]

/-- One loop iteration that proposes the same action as the two previous
steps: the loop returns the repetition-policy answer without executing the
tool and persists the exchange. -/
theorem runLoop_step_repetition (reg : ToolRegistry) (llm : LLMBehavior) (q : String)
    (R iter r : ℕ) (steps : List Step) (tokens : ℕ) (hist : List ConversationMessage)
    (t : ℕ) (th act : String) (ai : Option String)
    (hllm : llm iter steps = (t, Except.ok ⟨th, some act, ai, none⟩))
    (hact : act ≠ "")
    (hrep : isRepeatedAction steps ⟨th, some act, ai, none⟩ = true) :
    runLoop reg llm q R iter (r + 1) steps tokens hist
      = (⟨repetitionAnswer steps, steps, tokens + t⟩,
          saveConversation R q (repetitionAnswer steps) steps hist) := by
  simp [runLoop, hllm, optStrTruthy, hact, hrep]

/-- C3: when the model proposes the identical (action, serialized input)
pair on the first three iterations, `run` terminates at the third
iteration without a third tool execution, returning the repetition-policy
answer over exactly the two completed steps (both carrying observations)
and persisting the exchange to conversation memory. -/
theorem run_repetition_guard (mi R : ℕ) (reg : ToolRegistry) (llm : LLMBehavior)
    (q : String) (hist : List ConversationMessage)
    (a : String) (inp : Option String) (th0 th1 th2 : String) (t0 t1 t2 : ℕ)
    (ha : a ≠ "")
    (hmi : 3 ≤ mi)
    (h0 : ∀ s, llm 0 s = (t0, Except.ok ⟨th0, some a, inp, none⟩))
    (h1 : ∀ s, llm 1 s = (t1, Except.ok ⟨th1, some a, inp, none⟩))
    (h2 : ∀ s, llm 2 s = (t2, Except.ok ⟨th2, some a, inp, none⟩)) :
    run mi R reg llm q hist
      = (⟨repetitionAnswer
            [⟨th0, some a, inp, some (executeTool reg a inp)⟩,
             ⟨th1, some a, inp, some (executeTool reg a inp)⟩],
          [⟨th0, some a, inp, some (executeTool reg a inp)⟩,
           ⟨th1, some a, inp, some (executeTool reg a inp)⟩],
          0 + t0 + t1 + t2⟩,
        saveConversation R q
          (repetitionAnswer
            [⟨th0, some a, inp, some (executeTool reg a inp)⟩,
             ⟨th1, some a, inp, some (executeTool reg a inp)⟩])
          [⟨th0, some a, inp, some (executeTool reg a inp)⟩,
           ⟨th1, some a, inp, some (executeTool reg a inp)⟩]
          hist) := by
  obtain ⟨m, rfl⟩ : ∃ m, mi = m + 3 := ⟨mi - 3, by omega⟩
  unfold run
  rw [show m + 3 = (m + 2) + 1 from rfl,
    runLoop_step_action reg llm q R 0 (m + 2) [] 0 hist t0 th0 a inp (h0 []) ha rfl]
  show runLoop reg llm q R 1 ((m + 1) + 1)
      [⟨th0, some a, inp, some (executeTool reg a inp)⟩] (0 + t0) hist = _
  rw [runLoop_step_action reg llm q R 1 (m + 1)
      [⟨th0, some a, inp, some (executeTool reg a inp)⟩] (0 + t0) hist t1 th1 a inp
      (h1 _) ha rfl]
  show runLoop reg llm q R 2 (m + 1)
      [⟨th0, some a, inp, some (executeTool reg a inp)⟩,
       ⟨th1, some a, inp, some (executeTool reg a inp)⟩] (0 + t0 + t1) hist = _
  rw [runLoop_step_repetition reg llm q R 2 m
      [⟨th0, some a, inp, some (executeTool reg a inp)⟩,
       ⟨th1, some a, inp, some (executeTool reg a inp)⟩] (0 + t0 + t1) hist t2 th2 a inp
      (h2 _) ha (by simp [isRepeatedAction])]

/-- A scripted model that always proposes `toolA` with the same input. -/
def guardLLM : LLMBehavior := fun _ _ => (5, Except.ok ⟨"t", some "toolA", none, none⟩)

/-- C3 witness: a concrete scripted run that trips the repetition guard at
the third iteration with exactly two completed steps. -/
theorem run_repetition_guard_witness :
    ("toolA" : String) ≠ "" ∧ 3 ≤ 3
    ∧ run 3 10 [] guardLLM "q" []
      = (⟨repetitionAnswer
            [⟨"t", some "toolA", none, some (executeTool [] "toolA" none)⟩,
             ⟨"t", some "toolA", none, some (executeTool [] "toolA" none)⟩],
          [⟨"t", some "toolA", none, some (executeTool [] "toolA" none)⟩,
           ⟨"t", some "toolA", none, some (executeTool [] "toolA" none)⟩],
          0 + 5 + 5 + 5⟩,
        saveConversation 10 "q"
          (repetitionAnswer
            [⟨"t", some "toolA", none, some (executeTool [] "toolA" none)⟩,
             ⟨"t", some "toolA", none, some (executeTool [] "toolA" none)⟩])
          [⟨"t", some "toolA", none, some (executeTool [] "toolA" none)⟩,
           ⟨"t", some "toolA", none, some (executeTool [] "toolA" none)⟩]
          []) :=
  ⟨by decide, by decide,
    run_repetition_guard 3 10 [] guardLLM "q" [] "toolA" none "t" "t" "t" 5 5 5
      (by decide) (by decide) (fun _ => rfl) (fun _ => rfl) (fun _ => rfl)⟩

/-- C6: dispatching an action name that is not registered does not raise
and does not end the run: it yields a failure observation naming the
unknown tool and listing all registered tool names, and the loop appends
it as a normal step observation and continues with the next iteration. -/
theorem executeTool_unknown_tool (reg : ToolRegistry) (name : String) (inp : Option String)
    (llm : LLMBehavior) (q : String) (hist : List ConversationMessage)
    (R r tok : ℕ) (th : String)
    (habs : ToolRegistry.get reg name = none)
    (hname : name ≠ "")
    (hllm : llm 0 [] = (tok, Except.ok ⟨th, some name, inp, none⟩)) :
    executeTool reg name inp
      = "工具 [" ++ name ++ "] 执行失败。错误："
          ++ ("工具 \"" ++ name ++ "\" 不存在。可用工具："
              ++ String.intercalate ", " (ToolRegistry.getNames reg))
    ∧ runLoop reg llm q R 0 (r + 1) [] 0 hist
      = runLoop reg llm q R 1 r [⟨th, some name, inp, some (executeTool reg name inp)⟩]
          (0 + tok) hist := by
  constructor
  · unfold executeTool
    rw [habs]
    rfl
  · rw [runLoop_step_action reg llm q R 0 r [] 0 hist tok th name inp hllm hname rfl]
    rfl

/-- A scripted model that always proposes the unregistered tool `ghost`. -/
def ghostLLM : LLMBehavior := fun _ _ => (0, Except.ok ⟨"t", some "ghost", none, none⟩)

/-- C6 witness: dispatching `ghost` against the empty registry. -/
theorem executeTool_unknown_tool_witness :
    ToolRegistry.get [] "ghost" = none ∧ ("ghost" : String) ≠ ""
    ∧ (executeTool [] "ghost" none
        = "工具 [" ++ "ghost" ++ "] 执行失败。错误："
            ++ ("工具 \"" ++ "ghost" ++ "\" 不存在。可用工具："
                ++ String.intercalate ", " (ToolRegistry.getNames []))
      ∧ runLoop [] ghostLLM "q" 1 0 (0 + 1) [] 0 []
        = runLoop [] ghostLLM "q" 1 1 0
            [⟨"t", some "ghost", none, some (executeTool [] "ghost" none)⟩] (0 + 0) []) :=
  ⟨rfl, by decide,
    executeTool_unknown_tool [] "ghost" none ghostLLM "q" [] 1 0 0 "t" rfl (by decide) rfl⟩

/-- The step trace produced by a scripted model that proposes action `a i`
with serialized input `inp i` and thought `th i` at iteration `i`. -/
def mkScriptSteps (reg : ToolRegistry) (a : Nat → String) (inp : Nat → Option String)
    (th : Nat → String) (n : Nat) : List Step :=
  (List.range n).map (fun i => ⟨th i, some (a i), inp i, some (executeTool reg (a i) (inp i))⟩)

/-- The script trace grows by one step per iteration. -/
theorem mkScriptSteps_succ (reg : ToolRegistry) (a : Nat → String) (inp : Nat → Option String)
    (th : Nat → String) (n : Nat) :
    mkScriptSteps reg a inp th (n + 1)
      = mkScriptSteps reg a inp th n
          ++ [⟨th n, some (a n), inp n, some (executeTool reg (a n) (inp n))⟩] := by
  simp [mkScriptSteps, List.range_succ]

/-- The script trace has one step per iteration. -/
theorem mkScriptSteps_length (reg : ToolRegistry) (a : Nat → String) (inp : Nat → Option String)
    (th : Nat → String) (n : Nat) : (mkScriptSteps reg a inp th n).length = n := by
  simp [mkScriptSteps]

/-- A proposal that differs from its predecessor never trips the guard. -/
theorem script_not_repeated (reg : ToolRegistry) (a : Nat → String) (inp : Nat → Option String)
    (th : Nat → String) (th' : String)
    (hdiff : ∀ i, ¬(a (i + 1) = a i ∧ inp (i + 1) = inp i)) (n : ℕ) :
    isRepeatedAction (mkScriptSteps reg a inp th n) ⟨th', some (a n), inp n, none⟩ = false := by
  match n with
  | 0 => rfl
  | 1 => rfl
  | (k + 1) + 1 =>
    rw [mkScriptSteps_succ, mkScriptSteps_succ]
    unfold isRepeatedAction
    rw [if_pos (by simp [mkScriptSteps_length])]
    rw [List.getLast?_concat, List.dropLast_concat, List.getLast?_concat]
    rw [decide_eq_false_iff_not]
    rintro ⟨hA, -, hC, -⟩
    exact hdiff (k + 1) ⟨(Option.some.inj hA).symm, hC.symm⟩

/-- A run over a never-final, never-repeating script exhausts the budget:
each of the remaining `r` iterations executes the tool and appends a step,
after which the loop returns the fixed budget answer and persists. -/
theorem runLoop_budget_script (reg : ToolRegistry) (llm : LLMBehavior) (q : String) (R : ℕ)
    (a : Nat → String) (inp : Nat → Option String) (th : Nat → String) (tk : Nat → Nat)
    (ha : ∀ i, a i ≠ "")
    (hdiff : ∀ i, ¬(a (i + 1) = a i ∧ inp (i + 1) = inp i))
    (hllm : ∀ i s, llm i s = (tk i, Except.ok ⟨th i, some (a i), inp i, none⟩)) :
    ∀ (r iter tokens : ℕ) (hist : List ConversationMessage), ∃ T,
      runLoop reg llm q R iter r (mkScriptSteps reg a inp th iter) tokens hist
        = (⟨budgetExhaustedAnswer, mkScriptSteps reg a inp th (iter + r), T⟩,
            saveConversation R q budgetExhaustedAnswer
              (mkScriptSteps reg a inp th (iter + r)) hist) := by
  intro r
  induction r with
  | zero =>
    intro iter tokens hist
    exact ⟨tokens, by simp [runLoop]⟩
  | succ r ih =>
    intro iter tokens hist
    rw [runLoop_step_action reg llm q R iter r (mkScriptSteps reg a inp th iter) tokens hist
        (tk iter) (th iter) (a iter) (inp iter) (hllm iter _) (ha iter)
        (script_not_repeated reg a inp th (th iter) hdiff iter)]
    rw [← mkScriptSteps_succ]
    rw [show iter + (r + 1) = (iter + 1) + r from by omega]
    exact ih (iter + 1) (tokens + tk iter) hist

/-- C7: against a model that proposes a (consecutively differing) tool
action on every iteration and never a final answer, `run` performs exactly
`maxIterations` iterations — executing the tool and recording an
observation each time — then returns the fixed budget-exhaustion answer
with those steps and persists the exchange. -/
theorem run_budget_exhaustion (mi R : ℕ) (reg : ToolRegistry) (llm : LLMBehavior)
    (q : String) (hist : List ConversationMessage)
    (a : Nat → String) (inp : Nat → Option String) (th : Nat → String) (tk : Nat → Nat)
    (ha : ∀ i, a i ≠ "")
    (hdiff : ∀ i, ¬(a (i + 1) = a i ∧ inp (i + 1) = inp i))
    (hllm : ∀ i s, llm i s = (tk i, Except.ok ⟨th i, some (a i), inp i, none⟩)) :
    ∃ T, run mi R reg llm q hist
        = (⟨budgetExhaustedAnswer, mkScriptSteps reg a inp th mi, T⟩,
            saveConversation R q budgetExhaustedAnswer (mkScriptSteps reg a inp th mi) hist)
      ∧ (mkScriptSteps reg a inp th mi).length = mi := by
  obtain ⟨T, hT⟩ := runLoop_budget_script reg llm q R a inp th tk ha hdiff hllm mi 0 0 hist
  rw [Nat.zero_add] at hT
  exact ⟨T, hT, mkScriptSteps_length reg a inp th mi⟩

/-- The alternating action script `toolA, toolB, toolA, ...`. -/
def altA : Nat → String := fun i => if i % 2 = 0 then "toolA" else "toolB"

/-- A scripted model proposing the alternating actions and never a final
answer. -/
def altLLM : LLMBehavior := fun i _ => (0, Except.ok ⟨"t", some (altA i), none, none⟩)

/-- C7 witness: with `maxIterations = 2` and the alternating script, the
run returns the budget-exhaustion answer after exactly 2 tool
executions. -/
theorem run_budget_exhaustion_witness :
    ∃ T, run 2 10 [] altLLM "q" []
        = (⟨budgetExhaustedAnswer, mkScriptSteps [] altA (fun _ => none) (fun _ => "t") 2, T⟩,
            saveConversation 10 "q" budgetExhaustedAnswer
              (mkScriptSteps [] altA (fun _ => none) (fun _ => "t") 2) [])
      ∧ (mkScriptSteps [] altA (fun _ => none) (fun _ => "t") 2).length = 2 :=
  run_budget_exhaustion 2 10 [] altLLM "q" [] altA (fun _ => none) (fun _ => "t") (fun _ => 0)
    (fun i => by unfold altA; split <;> decide)
    (fun i => by
      rintro ⟨hA, -⟩
      rcases Nat.mod_two_eq_zero_or_one i with hp | hp <;>
        simp [altA, hp, Nat.add_mod] at hA)
    (fun _ _ => rfl)

/-- Every terminated loop persists exactly the returned answer and steps,
and the returned answer is the budget answer, an error-conversion answer,
a repetition-policy answer, or a final answer supplied by the model. -/
theorem runLoop_outcomes (reg : ToolRegistry) (llm : LLMBehavior) (q : String) (R : ℕ) :
    ∀ (r iter : ℕ) (steps : List Step) (tokens : ℕ) (hist : List ConversationMessage),
      ((runLoop reg llm q R iter r steps tokens hist).2
        = saveConversation R q (runLoop reg llm q R iter r steps tokens hist).1.answer
            (runLoop reg llm q R iter r steps tokens hist).1.steps hist)
      ∧ ((runLoop reg llm q R iter r steps tokens hist).1.answer = budgetExhaustedAnswer
        ∨ (∃ e, (runLoop reg llm q R iter r steps tokens hist).1.answer = runtimeErrorAnswer e)
        ∨ (∃ s, (runLoop reg llm q R iter r steps tokens hist).1.answer = repetitionAnswer s)
        ∨ (∃ i s t ta, llm i s = (t, Except.ok ta)
            ∧ ta.finalAnswer
              = some (runLoop reg llm q R iter r steps tokens hist).1.answer)) := by
  intro r
  induction r with
  | zero =>
    intro iter steps tokens hist
    exact ⟨by simp [runLoop], Or.inl (by simp [runLoop])⟩
  | succ r ih =>
    intro iter steps tokens hist
    rcases hllm : llm iter steps with ⟨t, parsed⟩
    rcases parsed with e | ta
    · constructor
      · simp [runLoop, hllm]
      · exact Or.inr (Or.inl ⟨e, by simp [runLoop, hllm]⟩)
    · by_cases hfa : optStrTruthy ta.finalAnswer = true
      · have hfa' : ta.finalAnswer = some ((runLoop reg llm q R iter (r + 1) steps tokens
            hist).1.answer) := by
          rcases hta : ta.finalAnswer with _ | s
          · rw [hta] at hfa
            simp [optStrTruthy] at hfa
          · simp [runLoop, hllm, hta, optStrTruthy] at hfa ⊢
            simp [hfa]
        exact ⟨by simp [runLoop, hllm, hfa], Or.inr (Or.inr (Or.inr
          ⟨iter, steps, t, ta, hllm, hfa'⟩))⟩
      · by_cases hact : optStrTruthy ta.action = true
        · by_cases hrep : isRepeatedAction steps ta = true
          · constructor
            · simp [runLoop, hllm, hfa, hact, hrep]
            · exact Or.inr (Or.inr (Or.inl ⟨steps, by simp [runLoop, hllm, hfa, hact, hrep]⟩))
          · have hred : runLoop reg llm q R iter (r + 1) steps tokens hist
                = runLoop reg llm q R (iter + 1) r
                    (steps ++ [{ thought := ta.thought, action := ta.action,
                                 actionInput := ta.actionInput,
                                 observation := some (executeTool reg (ta.action.getD "")
                                   ta.actionInput) }])
                    (tokens + t) hist := by
              simp [runLoop, hllm, hfa, hact, hrep]
            rw [hred]
            rcases ih (iter + 1)
                (steps ++ [{ thought := ta.thought, action := ta.action,
                             actionInput := ta.actionInput,
                             observation := some (executeTool reg (ta.action.getD "")
                               ta.actionInput) }])
                (tokens + t) hist with ⟨hsave, houtcome⟩
            exact ⟨hsave, houtcome⟩
        · constructor
          · simp [runLoop, hllm, hfa, hact]
          · exact Or.inr (Or.inl ⟨noActionNoFinalMsg, by simp [runLoop, hllm, hfa, hact]⟩)

/-- C4: for every question and every behaviour of the model backend and
the tools, `run` is a total function returning a well-formed result object
(answer, steps, totalTokens) together with the persisted history — no path
raises — and every returned answer is either a model-supplied final
answer, the repetition-policy answer, the budget-exhaustion answer, or an
error description produced by converting a caught failure (model-call
exception, parse failure, or a decision with neither action nor final
answer) into the error-answer form. -/
theorem run_outcomes_total (mi R : ℕ) (reg : ToolRegistry) (llm : LLMBehavior)
    (q : String) (hist : List ConversationMessage) :
    ((run mi R reg llm q hist).2
      = saveConversation R q (run mi R reg llm q hist).1.answer
          (run mi R reg llm q hist).1.steps hist)
    ∧ ((run mi R reg llm q hist).1.answer = budgetExhaustedAnswer
      ∨ (∃ e, (run mi R reg llm q hist).1.answer = runtimeErrorAnswer e)
      ∨ (∃ s, (run mi R reg llm q hist).1.answer = repetitionAnswer s)
      ∨ (∃ i s t ta, llm i s = (t, Except.ok ta)
          ∧ ta.finalAnswer = some (run mi R reg llm q hist).1.answer)) :=
  runLoop_outcomes reg llm q R mi 0 [] 0 hist

end ReAct
